import Mathlib

/-!
# Verification of the appliance-energy preprocessing pipeline

Shallow embedding of `src/components/data_preprocessing.py` (class
`DataPreprocessor`) and of `main.py`.

A pandas DataFrame is modelled as an ordered association list of named
columns; a cell is `Option ℚ` (`none` models a missing value / NaN,
`some v` an observed numeric value; exact rationals stand for the
floating-point numbers, which is faithful for the order-theoretic and
exactly-representable facts proved here).
-/

/-- A column of a pandas DataFrame: a list of cells, `none` = NaN. -/
abbrev Col := List (Option ℚ)

/-- A pandas DataFrame: ordered association list of named columns.
The temporal index is not represented: no modelled operation reads it. -/
structure DataFrame where
  cols : List (String × Col)
deriving DecidableEq

/-- Column lookup, `df[name]`. -/
def DataFrame.getCol (df : DataFrame) (n : String) : Option Col :=
  (df.cols.find? (fun p => p.1 == n)).map (·.2)

/-- Column assignment `df[name] = c`: pandas replaces an existing column in
place (keeping its position) and appends a new one at the end. -/
def setPair (n : String) (c : Col) : List (String × Col) → List (String × Col)
  | [] => [(n, c)]
  | p :: ps => if p.1 == n then (n, c) :: ps else p :: setPair n c ps

def DataFrame.setCol (df : DataFrame) (n : String) (c : Col) : DataFrame :=
  ⟨setPair n c df.cols⟩

/-- Python errors surfaced by the modelled code paths. -/
inductive PyErr
  | keyError
  | typeError
deriving DecidableEq

/-! ## Missing-value handling (`DataPreprocessor.handle_missing_values`) -/

/-- One step of pandas forward fill: an observed cell replaces the carry,
a missing cell is replaced by the carry. -/
def ffillStep (acc x : Option ℚ) : Option ℚ :=
  match x with
  | some v => some v
  | none => acc

/-- Forward fill of one column with carry `a` (the last observed value
seen so far; `none` before the first observation). -/
def ffillCol (a : Option ℚ) : Col → Col
  | [] => []
  | x :: rest => ffillStep a x :: ffillCol (ffillStep a x) rest

/-- `self.df.ffill(inplace=True)`: forward fill every column. -/
def handle_missing_values (df : DataFrame) : DataFrame :=
  ⟨df.cols.map (fun p => (p.1, ffillCol none p.2))⟩

/-- The spec's "most recent preceding non-missing value in row order"
at row `i` of column `c` (`none` when no preceding observation exists). -/
def lastObserved (c : Col) (i : ℕ) : Option ℚ :=
  (c.take i).foldl ffillStep none

/-! ## Outlier capping (`DataPreprocessor.handle_outliers`) -/

/-- The non-missing values of a column, in row order (pandas quantile and
clip skip NaN cells). -/
def nonMissing (c : Col) : List ℚ :=
  c.filterMap id

/-- The non-missing values of a column in ascending order. -/
def sortedVals (c : Col) : List ℚ :=
  List.insertionSort (· ≤ ·) (nonMissing c)

/-- Linear interpolation into a sorted value list at fractional rank `h`:
`s[⌊h⌋] + (h − ⌊h⌋)·(s[⌊h⌋+1] − s[⌊h⌋])`, where a missing right neighbour
falls back to the left one (rank `h = n−1` reads only `s[n−1]`). -/
def interp (s : List ℚ) (h : ℚ) : ℚ :=
  s.getD (⌊h⌋.toNat) 0 +
    (h - ((⌊h⌋.toNat : ℕ) : ℚ)) *
      (s.getD (⌊h⌋.toNat + 1) (s.getD (⌊h⌋.toNat) 0) - s.getD (⌊h⌋.toNat) 0)

/-- `Series.quantile(q)` with the pandas default `interpolation='linear'`:
linear interpolation at rank `q·(n−1)` over the sorted non-missing values;
NaN (here `none`) when the column has no non-missing value. -/
def quantile (c : Col) (q : ℚ) : Option ℚ :=
  if sortedVals c = [] then none
  else some (interp (sortedVals c) (q * ((sortedVals c).length - 1)))

/-- The IQR fence `[q1 − 1.5·iqr, q3 + 1.5·iqr]` of `handle_outliers`;
`none` when the quantiles are NaN (an all-missing column). -/
def outlierBounds (c : Col) : Option (ℚ × ℚ) :=
  match quantile c (1/4), quantile c (3/4) with
  | some q1, some q3 => some (q1 - 1.5 * (q3 - q1), q3 + 1.5 * (q3 - q1))
  | _, _ => none

/-- `Series.clip(lower, upper)` on one cell: NaN cells stay NaN, a NaN
threshold (`none`) is ignored, otherwise the value is clamped. -/
def clipVal (lo hi : Option ℚ) : Option ℚ → Option ℚ
  | none => none
  | some v =>
      some (match hi with
            | none => match lo with | none => v | some l => max l v
            | some h => min h (match lo with | none => v | some l => max l v))

/-- The derived column `Appliances_capped`: the target column clipped to
the IQR fence (a no-op clip when the bounds are NaN). -/
def cappedColumn (c : Col) : Col :=
  match outlierBounds c with
  | some (lo, hi) => c.map (clipVal (some lo) (some hi))
  | none => c.map (clipVal none none)

/-- `DataPreprocessor.handle_outliers`: reads `df['Appliances']` (raising
`KeyError` when absent, as the Python subscript does), computes the IQR
fence from it and assigns the clipped copy to `df['Appliances_capped']`. -/
def handle_outliers (df : DataFrame) : Except PyErr DataFrame :=
  match df.getCol "Appliances" with
  | none => .error .keyError
  | some c => .ok (df.setCol "Appliances_capped" (cappedColumn c))

/-! ## Feature scaling (`DataPreprocessor.scale_features`) -/

/-- Arithmetic mean of a list of values (`StandardScaler` `mean_`). -/
def listMean (l : List ℚ) : ℚ := l.sum / l.length

/-- Population variance of a list of values (`StandardScaler` `var_`). -/
def popVar (l : List ℚ) : ℚ :=
  ((l.map (fun x => (x - listMean l) ^ 2)).sum) / l.length

/-- The divisor used by `StandardScaler.transform`: the population standard
deviation, except that sklearn's `_handle_zeros_in_scale` replaces a zero
scale (a constant column) by `1` instead of dividing by zero. -/
noncomputable def sklearnScale (l : List ℚ) : ℝ :=
  if popVar l = 0 then 1 else Real.sqrt (popVar l)

/-- One column of `scaler.fit_transform`: `(x - mean) / scale`, the
`<col>_scaled` derived column (real-valued, as the scale is a square
root). -/
noncomputable def standardScaleColumn (l : List ℚ) : List ℝ :=
  l.map (fun x : ℚ => ((x : ℝ) - (listMean l : ℝ)) / sklearnScale l)

/-! ## The class body and `run_all` (claim C8) -/

/-- The method names defined in the body of `class DataPreprocessor`
(`src/src/components/data_preprocessing.py`). `run_all` is absent: its
`def` starts at column 0 after the class, so it is a module-level function
and not an attribute of the class or its instances. -/
def DataPreprocessorMethods : List String :=
  ["__init__", "load_data", "detect_missing_values", "handle_missing_values",
   "handle_outliers", "scale_features", "save_processed_data", "get_data"]

/-! ## Persistence (`DataPreprocessor.save_processed_data`, claim C9) -/

/-- Python `os.path.dirname(p)`: the path up to (excluding) the last
path separator. -/
def dirnameStr (p : String) : String :=
  String.intercalate "/" ((p.splitOn "/").dropLast)

/-- A Python call `os.path.dirname(p, **kwargs)`: `dirname` accepts exactly
one positional argument, so passing any keyword argument raises
`TypeError`. -/
def dirnameCall (p : String) (kwargs : List String) : Except PyErr String :=
  if kwargs = [] then .ok (dirnameStr p) else .error .typeError

/-- `DataPreprocessor.save_processed_data`: the source line is
`os.makedirs(os.path.dirname(save_path, exist_ok=True))` — the keyword
`exist_ok=True` is passed to `os.path.dirname` (not to `os.makedirs`).
A successful write is modelled by returning the table and the path it
would be written to. -/
def save_processed_data (df : DataFrame) (save_path : String) :
    Except PyErr (DataFrame × String) :=
  match dirnameCall save_path ["exist_ok"] with
  | .error e => .error e
  | .ok _ => .ok (df, save_path)

/-! ## Concrete tables used by the scenarios and witnesses -/

/-- The spec §8 scenario input column `Appliances = [10, 12, 11, 100, 13, 9]`. -/
def col2 : Col := [some 10, some 12, some 11, some 100, some 13, some 9]

/-- A one-column DataFrame holding the scenario target column. -/
def df2 : DataFrame := ⟨[("Appliances", col2)]⟩

/-- The scenario capped column `[10, 12, 11, 16.5, 13, 9]`. -/
def capped2 : Col := [some 10, some 12, some 11, some (33/2), some 13, some 9]

/-- The DataFrame produced by `handle_outliers` on the scenario input. -/
def df2' : DataFrame := ⟨[("Appliances", col2), ("Appliances_capped", capped2)]⟩

/-- The column used to witness C4: a leading missing cell, observed cells,
and missing gaps. -/
def col4 : Col := [none, some 1, none, none, some 2, none]

def df4 : DataFrame := ⟨[("T_out", col4)]⟩

/-- The all-missing target table of the C6 scenario. -/
def df6 : DataFrame := ⟨[("Appliances", [none, none, none])]⟩

/-! ## Basic DataFrame lemmas -/

lemma find?_setPair_self (n : String) (c : Col) (l : List (String × Col)) :
    (setPair n c l).find? (fun p => p.1 == n) = some (n, c) := by
  induction l with
  | nil => simp [setPair, List.find?]
  | cons p ps ih =>
      by_cases h : p.1 = n
      · simp [setPair, h, List.find?]
      · simp only [setPair, beq_iff_eq, h, if_false]
        rw [List.find?_cons_of_neg _ (by simpa using h)]
        exact ih

lemma find?_setPair_ne (n m : String) (c : Col) (l : List (String × Col))
    (hnm : m ≠ n) :
    (setPair n c l).find? (fun p => p.1 == m) = l.find? (fun p => p.1 == m) := by
  induction l with
  | nil =>
      show List.find? _ [(n, c)] = _
      rw [List.find?_cons_of_neg _ (by simpa using Ne.symm hnm)]
  | cons p ps ih =>
      by_cases h : p.1 = n
      · simp only [setPair, beq_iff_eq, h, if_true]
        rw [List.find?_cons_of_neg _ (by simpa using Ne.symm hnm),
          List.find?_cons_of_neg _ (by simp [h, Ne.symm hnm])]
      · simp only [setPair, beq_iff_eq, h, if_false]
        by_cases hm : p.1 = m
        · rw [List.find?_cons_of_pos _ (by simpa using hm),
            List.find?_cons_of_pos _ (by simpa using hm)]
        · rw [List.find?_cons_of_neg _ (by simpa using hm),
            List.find?_cons_of_neg _ (by simpa using hm)]
          exact ih

lemma getCol_setCol_self (df : DataFrame) (n : String) (c : Col) :
    (df.setCol n c).getCol n = some c := by
  simp [DataFrame.getCol, DataFrame.setCol, find?_setPair_self]

lemma getCol_setCol_ne (df : DataFrame) (n m : String) (c : Col) (h : m ≠ n) :
    (df.setCol n c).getCol m = df.getCol m := by
  simp [DataFrame.getCol, DataFrame.setCol, find?_setPair_ne _ _ _ _ h]

lemma setPair_setPair_same (n : String) (c : Col) (l : List (String × Col)) :
    setPair n c (setPair n c l) = setPair n c l := by
  induction l with
  | nil => simp [setPair]
  | cons p ps ih =>
      by_cases h : p.1 = n
      · simp [setPair, h]
      · simp [setPair, h, ih]

lemma setCol_setCol_same (df : DataFrame) (n : String) (c : Col) :
    (df.setCol n c).setCol n c = df.setCol n c := by
  simp [DataFrame.setCol, setPair_setPair_same]

/-! ## Forward-fill lemmas -/

lemma ffillStep_idem (a x : Option ℚ) :
    ffillStep a (ffillStep a x) = ffillStep a x := by
  cases x <;> cases a <;> rfl

lemma ffillCol_idem (a : Option ℚ) (c : Col) :
    ffillCol a (ffillCol a c) = ffillCol a c := by
  induction c generalizing a with
  | nil => rfl
  | cons x rest ih =>
      simp only [ffillCol, ffillStep_idem]
      exact congrArg _ (ih (ffillStep a x))

lemma ffillCol_length (a : Option ℚ) (c : Col) :
    (ffillCol a c).length = c.length := by
  induction c generalizing a with
  | nil => rfl
  | cons x rest ih => simp [ffillCol, ih]

/-- Cell-level description of forward fill with carry `a`: an observed cell
is returned as is; a missing cell is replaced by the fold of `ffillStep`
over the cells before it, started at `a`. -/
lemma ffillCol_get? (a : Option ℚ) (c : Col) (i : ℕ) :
    (ffillCol a c).get? i =
      match c.get? i with
      | Option.none => Option.none
      | Option.some (Option.some v) => Option.some (Option.some v)
      | Option.some Option.none => Option.some ((c.take i).foldl ffillStep a) := by
  induction c generalizing a i with
  | nil => cases i <;> rfl
  | cons x rest ih =>
      cases i with
      | zero => cases x <;> rfl
      | succ j =>
          have := ih (ffillStep a x) j
          cases x with
          | some v => simpa [ffillCol, ffillStep] using this
          | none => simpa [ffillCol, ffillStep] using this

lemma getCol_handle_missing_values (df : DataFrame) (n : String) (c : Col)
    (h : df.getCol n = some c) :
    (handle_missing_values df).getCol n = some (ffillCol none c) := by
  unfold DataFrame.getCol handle_missing_values at *
  rw [List.find?_map]
  have : ((fun p : String × Col => p.1 == n) ∘ fun p : String × Col =>
      (p.1, ffillCol none p.2)) = fun p : String × Col => p.1 == n := rfl
  rw [this]
  cases hf : df.cols.find? (fun p => p.1 == n) with
  | none => rw [hf] at h; cases h
  | some p =>
      rw [hf] at h
      have h2 : p.2 = c := by simpa using h
      subst h2
      rfl

/-! ## The spec §8 scenario computations -/

lemma col2_sorted : sortedVals col2 = [9, 10, 11, 12, 13, 100] := by decide

lemma col2_q1 : quantile col2 (1/4) = some (41/4) := by
  rw [quantile, col2_sorted, if_neg (by simp)]
  norm_num [interp, Int.toNat_ofNat, List.getD]

lemma col2_q3 : quantile col2 (3/4) = some (51/4) := by
  rw [quantile, col2_sorted, if_neg (by simp)]
  norm_num [interp, Int.toNat_ofNat, List.getD, show Int.toNat 3 = 3 from rfl]

lemma col2_bounds : outlierBounds col2 = some (13/2, 33/2) := by
  rw [outlierBounds, col2_q1, col2_q3]; norm_num

lemma col2_capped : cappedColumn col2 = capped2 := by
  rw [cappedColumn, col2_bounds]
  norm_num [col2, capped2, clipVal]

lemma handle_outliers_df2 : handle_outliers df2 = .ok df2' := by
  have hg : df2.getCol "Appliances" = some col2 := by decide
  rw [handle_outliers, hg]
  show Except.ok (df2.setCol "Appliances_capped" (cappedColumn col2)) = _
  rw [col2_capped]
  rfl

/-! ## All-missing target column lemmas -/

lemma clipVal_none_none (x : Option ℚ) : clipVal none none x = x := by
  cases x <;> rfl

lemma nonMissing_eq_nil (c : Col) (h : ∀ x ∈ c, x = none) :
    nonMissing c = [] := by
  induction c with
  | nil => rfl
  | cons x rest ih =>
      have hx := h x (by simp)
      subst hx
      exact ih (fun y hy => h y (by simp [hy]))

lemma outlierBounds_all_missing (c : Col) (h : ∀ x ∈ c, x = none) :
    outlierBounds c = none := by
  have hq : quantile c (1/4) = none := by
    rw [quantile, if_pos]
    rw [sortedVals, nonMissing_eq_nil c h]
    rfl
  have hq3 : quantile c (3/4) = none := by
    rw [quantile, if_pos]
    rw [sortedVals, nonMissing_eq_nil c h]
    rfl
  rw [outlierBounds, hq, hq3]

/-! ## Monotonicity of the linear-interpolation quantile -/

lemma getD_lt (l : List ℚ) (i : ℕ) (d : ℚ) (h : i < l.length) :
    l.getD i d = l.get ⟨i, h⟩ := by
  rw [List.getD_eq_getElem?_getD, List.getElem?_eq_getElem h]
  simp [List.get_eq_getElem]

lemma getD_ge (l : List ℚ) (i : ℕ) (d : ℚ) (h : l.length ≤ i) :
    l.getD i d = d := by
  rw [List.getD_eq_getElem?_getD, List.getElem?_eq_none h]
  rfl

lemma sorted_get_le (s : List ℚ) (hs : s.Sorted (· ≤ ·)) (i j : ℕ)
    (hij : i ≤ j) (hj : j < s.length) :
    s.get ⟨i, lt_of_le_of_lt hij hj⟩ ≤ s.get ⟨j, hj⟩ :=
  hs.rel_get_of_le (by exact hij)

lemma getD_succ_ge (s : List ℚ) (hs : s.Sorted (· ≤ ·)) (i : ℕ) :
    s.getD i 0 ≤ s.getD (i + 1) (s.getD i 0) := by
  by_cases h : i + 1 < s.length
  · rw [getD_lt _ _ _ h, getD_lt _ _ _ (by omega)]
    exact sorted_get_le s hs i (i + 1) (by omega) h
  · have hb : s.getD (i + 1) (s.getD i 0) = s.getD i 0 :=
      getD_ge _ _ _ (by omega)
    rw [hb]

lemma floor_toNat_le_self (h : ℚ) (h0 : 0 ≤ h) : ((⌊h⌋.toNat : ℕ) : ℚ) ≤ h := by
  have hnn : 0 ≤ ⌊h⌋ := Int.floor_nonneg.mpr h0
  have hcast : ((⌊h⌋.toNat : ℕ) : ℚ) = ((⌊h⌋ : ℤ) : ℚ) := by
    exact_mod_cast congrArg (fun z : ℤ => (z : ℚ)) (Int.toNat_of_nonneg hnn)
  rw [hcast]
  exact Int.floor_le h

lemma lt_floor_toNat_succ (h : ℚ) (h0 : 0 ≤ h) : h < (⌊h⌋.toNat : ℚ) + 1 := by
  have hnn : 0 ≤ ⌊h⌋ := Int.floor_nonneg.mpr h0
  have hcast : ((⌊h⌋.toNat : ℕ) : ℚ) = ((⌊h⌋ : ℤ) : ℚ) := by
    exact_mod_cast congrArg (fun z : ℤ => (z : ℚ)) (Int.toNat_of_nonneg hnn)
  rw [hcast]
  exact Int.lt_floor_add_one h

lemma floor_toNat_lt_length (h : ℚ) (n : ℕ) (h0 : 0 ≤ h)
    (hub : h ≤ (n : ℚ) - 1) (hn : 1 ≤ n) : ⌊h⌋.toNat < n := by
  have hle : h ≤ (((n : ℤ) - 1 : ℤ) : ℚ) := by push_cast; linarith
  have hfl : ⌊h⌋ ≤ (n : ℤ) - 1 := by
    have := Int.floor_mono hle
    rwa [Int.floor_intCast] at this
  omega

lemma interp_lower (s : List ℚ) (hs : s.Sorted (· ≤ ·)) (h : ℚ)
    (h0 : 0 ≤ h) : s.getD (⌊h⌋.toNat) 0 ≤ interp s h := by
  have hg0 : (0 : ℚ) ≤ h - (⌊h⌋.toNat : ℚ) :=
    sub_nonneg.mpr (floor_toNat_le_self h h0)
  have hab := getD_succ_ge s hs (⌊h⌋.toNat)
  rw [interp]
  nlinarith [mul_nonneg hg0 (sub_nonneg.mpr hab)]

lemma interp_upper (s : List ℚ) (hs : s.Sorted (· ≤ ·)) (h : ℚ)
    (h0 : 0 ≤ h) :
    interp s h ≤ s.getD (⌊h⌋.toNat + 1) (s.getD (⌊h⌋.toNat) 0) := by
  have hg0 : (0 : ℚ) ≤ h - (⌊h⌋.toNat : ℚ) :=
    sub_nonneg.mpr (floor_toNat_le_self h h0)
  have hg1 : h - (⌊h⌋.toNat : ℚ) ≤ 1 := by
    have := lt_floor_toNat_succ h h0
    linarith
  have hab := getD_succ_ge s hs (⌊h⌋.toNat)
  rw [interp]
  nlinarith [mul_nonneg (by linarith : (0:ℚ) ≤ 1 - (h - (⌊h⌋.toNat : ℚ)))
    (sub_nonneg.mpr hab)]

/-- Interpolation into a sorted list is monotone in the fractional rank. -/
lemma interp_mono (s : List ℚ) (hs : s.Sorted (· ≤ ·)) (h h' : ℚ)
    (h0 : 0 ≤ h) (hhh : h ≤ h') (hub : h' ≤ (s.length : ℚ) - 1)
    (hn : 1 ≤ s.length) :
    interp s h ≤ interp s h' := by
  have h0' : 0 ≤ h' := le_trans h0 hhh
  have hi_le : ⌊h⌋.toNat ≤ ⌊h'⌋.toNat := by
    have := Int.floor_mono hhh
    omega
  rcases eq_or_lt_of_le hi_le with heq | hlt
  · -- same segment: the difference is (h' − h)·(b − a) ≥ 0
    have hab := getD_succ_ge s hs (⌊h⌋.toNat)
    rw [interp, interp, ← heq]
    have hmul := mul_le_mul_of_nonneg_right
      (by linarith : h - ((⌊h⌋.toNat : ℕ) : ℚ) ≤ h' - ((⌊h⌋.toNat : ℕ) : ℚ))
      (sub_nonneg.mpr hab)
    linarith
  · -- h lies in an earlier segment: chain through s[i+1] ≤ s[i']
    have hi'_lt : ⌊h'⌋.toNat < s.length :=
      floor_toNat_lt_length h' s.length h0' hub hn
    have hstep : s.getD (⌊h⌋.toNat + 1) (s.getD (⌊h⌋.toNat) 0) ≤
        s.getD (⌊h'⌋.toNat) 0 := by
      rw [getD_lt _ _ _ (by omega), getD_lt _ _ _ hi'_lt]
      exact sorted_get_le s hs (⌊h⌋.toNat + 1) (⌊h'⌋.toNat) (by omega)
        hi'_lt
    exact le_trans (interp_upper s hs h h0)
      (le_trans hstep (interp_lower s hs h' h0'))

lemma sortedVals_sorted (c : Col) : (sortedVals c).Sorted (· ≤ ·) :=
  List.sorted_insertionSort _ _

lemma clipVal_some_some (lo hi v : ℚ) :
    clipVal (some lo) (some hi) (some v) = some (min hi (max lo v)) := rfl

/-- The first quartile never exceeds the third quartile. -/
lemma quantile_q1_le_q3 (c : Col) (hne : sortedVals c ≠ []) (q1 q3 : ℚ)
    (hq1 : quantile c (1/4) = some q1) (hq3 : quantile c (3/4) = some q3) :
    q1 ≤ q3 := by
  rw [quantile, if_neg hne] at hq1 hq3
  injection hq1 with hq1
  injection hq3 with hq3
  subst hq1
  subst hq3
  have hn : 1 ≤ (sortedVals c).length := List.length_pos.mpr hne
  have hn' : (1 : ℚ) ≤ ((sortedVals c).length : ℚ) := by exact_mod_cast hn
  apply interp_mono _ (sortedVals_sorted c)
  · nlinarith
  · nlinarith
  · nlinarith
  · exact hn

/-! ## Claim theorems -/

/-- C1: when the target column has at least 4 non-missing values, every
observed cell of the derived capped column lies within
`[Q1 − 1.5·IQR, Q3 + 1.5·IQR]` (quantiles by linear interpolation over the
non-missing values of the original column), and every original observed
value already inside those bounds is unchanged at the same row. -/
theorem C1_capping_within_bounds (df : DataFrame) (c : Col)
    (hget : df.getCol "Appliances" = some c)
    (h4 : 4 ≤ (nonMissing c).length)
    (q1 q3 : ℚ) (hq1 : quantile c (1/4) = some q1)
    (hq3 : quantile c (3/4) = some q3) :
    handle_outliers df = .ok (df.setCol "Appliances_capped" (cappedColumn c)) ∧
    (∀ i v, (cappedColumn c).get? i = some (some v) →
      q1 - 1.5 * (q3 - q1) ≤ v ∧ v ≤ q3 + 1.5 * (q3 - q1)) ∧
    (∀ i v, c.get? i = some (some v) → q1 - 1.5 * (q3 - q1) ≤ v →
      v ≤ q3 + 1.5 * (q3 - q1) → (cappedColumn c).get? i = some (some v)) := by
  have hne : sortedVals c ≠ [] := by
    have hlen : (sortedVals c).length = (nonMissing c).length :=
      (List.perm_insertionSort _ _).length_eq
    intro h
    rw [h] at hlen
    simp only [List.length_nil] at hlen
    omega
  have hq13 : q1 ≤ q3 := quantile_q1_le_q3 c hne q1 q3 hq1 hq3
  have hlohi : q1 - 1.5 * (q3 - q1) ≤ q3 + 1.5 * (q3 - q1) := by linarith
  have hb : outlierBounds c =
      some (q1 - 1.5 * (q3 - q1), q3 + 1.5 * (q3 - q1)) := by
    rw [outlierBounds, hq1, hq3]
  have hcap : cappedColumn c = c.map
      (clipVal (some (q1 - 1.5 * (q3 - q1))) (some (q3 + 1.5 * (q3 - q1)))) := by
    rw [cappedColumn, hb]
  refine ⟨by rw [handle_outliers, hget], fun i v hiv => ?_,
    fun i v hiv hlo hhi => ?_⟩
  · rw [hcap, List.get?_map] at hiv
    cases hci : c.get? i with
    | none => rw [hci] at hiv; cases hiv
    | some x =>
        cases x with
        | none =>
            rw [hci] at hiv
            simp only [Option.map_some'] at hiv
            cases hiv
        | some w =>
            rw [hci] at hiv
            simp only [Option.map_some', clipVal_some_some,
              Option.some.injEq] at hiv
            subst hiv
            exact ⟨le_min hlohi (le_max_left _ _), min_le_left _ _⟩
  · rw [hcap, List.get?_map, hiv]
    simp only [Option.map_some', clipVal_some_some]
    rw [max_eq_right hlo, min_eq_right hhi]

/-- Witness for C1 at the spec §8 scenario column (six observed values,
`Q1 = 10.25`, `Q3 = 12.75`). -/
theorem C1_capping_within_bounds_witness :
    df2.getCol "Appliances" = some col2 ∧ 4 ≤ (nonMissing col2).length ∧
    quantile col2 (1/4) = some (41/4) ∧ quantile col2 (3/4) = some (51/4) ∧
    (handle_outliers df2 =
      .ok (df2.setCol "Appliances_capped" (cappedColumn col2)) ∧
    (∀ i v, (cappedColumn col2).get? i = some (some v) →
      41/4 - 1.5 * (51/4 - 41/4) ≤ v ∧ v ≤ 51/4 + 1.5 * (51/4 - 41/4)) ∧
    (∀ i v, col2.get? i = some (some v) → 41/4 - 1.5 * (51/4 - 41/4) ≤ v →
      v ≤ 51/4 + 1.5 * (51/4 - 41/4) →
      (cappedColumn col2).get? i = some (some v))) :=
  ⟨by decide, by decide, col2_q1, col2_q3,
    C1_capping_within_bounds df2 col2 (by decide) (by decide) (41/4) (51/4)
      col2_q1 col2_q3⟩

/-- C2: on `Appliances = [10, 12, 11, 100, 13, 9]` the step computes
`Q1 = 10.25`, `Q3 = 12.75` (hence `IQR = 2.5`), fence `[6.5, 16.5]`, and
the capped column `[10, 12, 11, 16.5, 13, 9]` — the linear-interpolation
quantile, not nearest-rank (which would give `Q1 = 10`, `Q3 = 13`). -/
theorem C2_scenario_linear_interpolation :
    quantile col2 (1/4) = some (41/4) ∧ quantile col2 (3/4) = some (51/4) ∧
    outlierBounds col2 = some (13/2, 33/2) ∧
    cappedColumn col2 =
      [some 10, some 12, some 11, some (33/2), some 13, some 9] ∧
    handle_outliers df2 = .ok df2' :=
  ⟨col2_q1, col2_q3, col2_bounds, col2_capped, handle_outliers_df2⟩

/-- C3: the forward-fill missing-value step is idempotent: applying
`handle_missing_values` twice produces exactly the table produced by
applying it once. -/
theorem C3_forward_fill_idempotent (df : DataFrame) :
    handle_missing_values (handle_missing_values df) = handle_missing_values df := by
  cases df with
  | mk cols =>
      simp only [handle_missing_values, List.map_map, DataFrame.mk.injEq]
      exact List.map_congr_left
        (fun p _ => by simp [Function.comp, ffillCol_idem])

/-- C4: forward fill leaves every observed cell unchanged at its row,
replaces each missing cell by the most recent preceding observed value in
row order, and leaves it missing when no preceding observed value exists
(`lastObserved` is `none` there) — leading missing rows stay missing. -/
theorem C4_forward_fill_semantics (df : DataFrame) (n : String) (c : Col)
    (h : df.getCol n = some c) :
    (handle_missing_values df).getCol n = some (ffillCol none c) ∧
    (∀ i v, c.get? i = some (some v) → (ffillCol none c).get? i = some (some v)) ∧
    (∀ i, c.get? i = some none →
      (ffillCol none c).get? i = some (lastObserved c i)) := by
  refine ⟨getCol_handle_missing_values df n c h, fun i v hi => ?_, fun i hi => ?_⟩
  · rw [ffillCol_get?, hi]
  · rw [ffillCol_get?, hi, lastObserved]

/-- Witness for C4 at a concrete table. -/
theorem C4_forward_fill_semantics_witness :
    df4.getCol "T_out" = some col4 ∧
    ((handle_missing_values df4).getCol "T_out" = some (ffillCol none col4) ∧
    (∀ i v, col4.get? i = some (some v) →
      (ffillCol none col4).get? i = some (some v)) ∧
    (∀ i, col4.get? i = some none →
      (ffillCol none col4).get? i = some (lastObserved col4 i))) :=
  ⟨by decide, C4_forward_fill_semantics df4 "T_out" col4 (by decide)⟩

/-- Counterexample to C5 as stated: on the constant feature column
`[5, 5, 5]` the scaling step raises nothing (the code has no
`DegenerateScaleError`); sklearn substitutes `1` for the zero standard
deviation and the derived column is `[0, 0, 0]` — finite values, no
`NaN`/`Inf`, no error. -/
theorem C5_counterexample : standardScaleColumn [5, 5, 5] = [0, 0, 0] := by
  have hm : listMean [5, 5, 5] = 5 := by norm_num [listMean]
  have hv : popVar [5, 5, 5] = 0 := by norm_num [popVar, hm]
  simp [standardScaleColumn, sklearnScale, hv, hm]

/-- Amended C5: for every constant feature column the scaling step does
not fail and produces the all-zero scaled column (sklearn's documented
zero-variance fallback divides by `1`), never `NaN`/`Inf`. -/
theorem C5_constant_column_scales_to_zero (n : ℕ) (v : ℚ) (hn : 0 < n) :
    standardScaleColumn (List.replicate n v) = List.replicate n 0 := by
  have hm : listMean (List.replicate n v) = v := by
    rw [listMean, List.sum_replicate, List.length_replicate, nsmul_eq_mul,
      mul_comm, mul_div_assoc, div_self (by exact_mod_cast hn.ne' : (n : ℚ) ≠ 0),
      mul_one]
  have hv : popVar (List.replicate n v) = 0 := by
    rw [popVar, List.map_replicate, hm, sub_self]
    norm_num
  rw [standardScaleColumn, sklearnScale, if_pos hv, hm, List.map_replicate]
  norm_num

/-- Witness for amended C5 at the spec's constant column of `5`s. -/
theorem C5_constant_column_scales_to_zero_witness :
    0 < 3 ∧ standardScaleColumn (List.replicate 3 (5 : ℚ)) = List.replicate 3 0 :=
  ⟨by decide, C5_constant_column_scales_to_zero 3 5 (by decide)⟩

/-- Counterexample to C6 as stated: on an all-missing target column
`handle_outliers` returns a table (it raises nothing — the code has no
`EmptyColumnError` path) and the capped column *is* produced, equal to the
all-missing original. -/
theorem C6_counterexample :
    handle_outliers df6 = .ok
      ⟨[("Appliances", [none, none, none]),
        ("Appliances_capped", [none, none, none])]⟩ := by
  have hg : df6.getCol "Appliances" = some [none, none, none] := by decide
  rw [handle_outliers, hg]
  show Except.ok
    (df6.setCol "Appliances_capped" (cappedColumn [none, none, none])) = _
  rw [cappedColumn, outlierBounds_all_missing [none, none, none] (by decide)]
  rfl

/-- Amended C6: on a target column with zero non-missing values
`handle_outliers` does not fail: both quantiles are NaN, so are the
bounds, the clip is then a no-op, and an `Appliances_capped` column equal
to the all-missing original is assigned. -/
theorem C6_all_missing_no_error (df : DataFrame) (c : Col)
    (hget : df.getCol "Appliances" = some c) (hall : ∀ x ∈ c, x = none) :
    handle_outliers df = .ok (df.setCol "Appliances_capped" c) := by
  rw [handle_outliers, hget]
  show Except.ok (df.setCol "Appliances_capped" (cappedColumn c)) = _
  rw [cappedColumn, outlierBounds_all_missing c hall]
  show Except.ok (df.setCol "Appliances_capped" (c.map (clipVal none none))) = _
  rw [show c.map (clipVal none none) = c from by
    rw [List.map_congr_left (fun x _ => clipVal_none_none x)]
    exact List.map_id c]

/-- Witness for amended C6. -/
theorem C6_all_missing_no_error_witness :
    df6.getCol "Appliances" = some [none, none, none] ∧
    (∀ x ∈ ([none, none, none] : Col), x = none) ∧
    handle_outliers df6 = .ok
      (df6.setCol "Appliances_capped" [none, none, none]) :=
  ⟨by decide, by decide,
    C6_all_missing_no_error df6 [none, none, none] (by decide) (by decide)⟩

/-- C7: `handle_outliers` only writes the `Appliances_capped` column —
every other column of the table (in particular `Appliances`) is unchanged. -/
theorem C7_handle_outliers_frame (df df' : DataFrame)
    (h : handle_outliers df = .ok df') (n : String)
    (hn : n ≠ "Appliances_capped") :
    df'.getCol n = df.getCol n := by
  rw [handle_outliers] at h
  cases hg : df.getCol "Appliances" with
  | none => rw [hg] at h; exact Except.noConfusion h
  | some c =>
      rw [hg] at h
      injection h with h
      subst h
      exact getCol_setCol_ne df "Appliances_capped" n (cappedColumn c) hn

/-- Witness for C7: on the scenario table, `Appliances` is unchanged. -/
theorem C7_handle_outliers_frame_witness :
    handle_outliers df2 = .ok df2' ∧ "Appliances" ≠ "Appliances_capped" ∧
    df2'.getCol "Appliances" = df2.getCol "Appliances" :=
  ⟨handle_outliers_df2, by decide,
    C7_handle_outliers_frame df2 df2' handle_outliers_df2 "Appliances" (by decide)⟩

/-- C8 (code bug): `run_all` is not a method of `DataPreprocessor`, so the
entry-point call `preprocessor.run_all(...)` in `main.py` raises
`AttributeError` instead of executing the four pipeline stages. -/
theorem C8_run_all_not_a_method : "run_all" ∉ DataPreprocessorMethods := by
  decide

/-- C9 (code bug): every call to `save_processed_data` raises `TypeError`
inside `os.path.dirname` before any directory is created or any file is
written; the claimed create-directories-then-write behaviour never runs. -/
theorem C9_save_always_raises_type_error (df : DataFrame) (p : String) :
    save_processed_data df p = .error .typeError := rfl

/-- C10: `handle_outliers` is idempotent: the bounds of the second run are
recomputed from the untouched `Appliances` column, and the second
assignment overwrites `Appliances_capped` with the same values. -/
theorem C10_handle_outliers_idempotent (df : DataFrame) (c : Col)
    (df' : DataFrame) (hc : df.getCol "Appliances" = some c)
    (h1 : 1 ≤ (nonMissing c).length) (h : handle_outliers df = .ok df') :
    handle_outliers df' = .ok df' := by
  rw [handle_outliers, hc] at h
  injection h with h
  have hA : df'.getCol "Appliances" = some c := by
    rw [← h, getCol_setCol_ne _ _ _ _ (by decide)]
    exact hc
  rw [handle_outliers, hA]
  show Except.ok (df'.setCol "Appliances_capped" (cappedColumn c)) = _
  rw [← h, setCol_setCol_same]

/-- Witness for C10: a second run on the scenario output is a fixed point. -/
theorem C10_handle_outliers_idempotent_witness :
    df2.getCol "Appliances" = some col2 ∧ 1 ≤ (nonMissing col2).length ∧
    handle_outliers df2 = .ok df2' ∧ handle_outliers df2' = .ok df2' :=
  ⟨by decide, by decide, handle_outliers_df2,
    C10_handle_outliers_idempotent df2 col2 df2' (by decide) (by decide)
      handle_outliers_df2⟩
